import Mathlib

/-!
Verification development for the `basic-template` repository.

The development shallowly embeds the runtime-relevant parts of the
repository:

* `src/public/scripts/sw.js` — the offline cache worker (cache-name
  lifecycle, fetch routing, image/script serving strategies).
* `src/public/scripts/indexController.js` — the controller-change reload
  guard.
* `src/components/BaseComponent.ts` (final generation) — props proxy,
  attribute coercion, one-time template materialization with incremental
  bound-node updates, style injection, detach/reattach lifecycle.
* `ExampleComponent` — the demo counter component.

JavaScript values are modelled by an explicit inductive type (`JSVal`)
with a number type that distinguishes a not-a-number result, so the
coercion behaviour of `Number(...)` can be stated faithfully.  All
definitions are executable; instrumentation of observable effects
(node creation, template materialization, bound-node refreshes,
dispatched events, network fetches, cache lookups) is carried in
explicit logs so that counting claims can be stated.
-/

/-- Numbers as JavaScript sees them, restricted to the integer literals
this repository manipulates, plus the distinguished not-a-number value. -/
inductive JSNum where
  | nan : JSNum
  | int : Int → JSNum
deriving DecidableEq

/-- A JavaScript value: string, number, boolean, `null` or `undefined`. -/
inductive JSVal where
  | str : String → JSVal
  | num : JSNum → JSVal
  | bool : Bool → JSVal
  | null : JSVal
  | undef : JSVal
deriving DecidableEq

/-- The string form of a `JSNum` (JavaScript `String(n)`), for the
integer fragment modelled here. -/
def jsNumToString : JSNum → String
  | JSNum.nan => "NaN"
  | JSNum.int i => toString i

/-- JavaScript `String(v)` on the modelled value fragment. -/
def jsToString : JSVal → String
  | JSVal.str s => s
  | JSVal.num n => jsNumToString n
  | JSVal.bool b => if b then "true" else "false"
  | JSVal.null => "null"
  | JSVal.undef => "undefined"

/-- The display text `v == null ? '' : String(v)` used by the component
when writing a prop value into a bound node (`none` models a missing
prop, i.e. `undefined`; the loose `== null` check catches both `null`
and `undefined`). -/
def jsDisplay : Option JSVal → String
  | none => ""
  | some JSVal.null => ""
  | some JSVal.undef => ""
  | some v => jsToString v

/-- Numeric value of a list of decimal digits. -/
def digitsVal (l : List Char) : Nat :=
  l.foldl (fun acc c => 10 * acc + (c.toNat - '0'.toNat)) 0

/-- Modelled from the JavaScript builtin `Number(s)` on strings,
restricted to the integer literals exercised by this repository:
the empty string converts to `0`, a (possibly negated) run of decimal
digits converts to the corresponding integer, and anything else
converts to the not-a-number value. -/
def jsStringToNumber (s : String) : JSNum :=
  match s.data with
  | [] => JSNum.int 0
  | '-' :: rest =>
      if rest ≠ [] ∧ rest.all Char.isDigit then JSNum.int (-(digitsVal rest : Int))
      else JSNum.nan
  | l =>
      if l.all Char.isDigit then JSNum.int (digitsVal l : Int)
      else JSNum.nan

/-- `Number(newValue)` where `newValue : string | null` — JavaScript
converts `null` to `0`. -/
def jsNumberOfAttr : Option String → JSNum
  | none => JSNum.int 0
  | some s => jsStringToNumber s

/-- Does the option hold a value of JavaScript type `"number"`?
(`typeof currentValue === 'number'`; a missing prop is `undefined`.) -/
def typeofIsNumber : Option JSVal → Bool
  | some (JSVal.num _) => true
  | _ => false

/-- Does the option hold a value of JavaScript type `"boolean"`? -/
def typeofIsBoolean : Option JSVal → Bool
  | some (JSVal.bool _) => true
  | _ => false

/-- JavaScript `x + 1` on the modelled value fragment (used by
`ExampleComponent.increment`; the component only ever applies it to a
number). -/
def jsPlusOne : JSVal → JSVal
  | JSVal.num (JSNum.int i) => JSVal.num (JSNum.int (i + 1))
  | JSVal.num JSNum.nan => JSVal.num JSNum.nan
  | JSVal.str s => JSVal.str (s ++ "1")
  | JSVal.bool b => JSVal.num (JSNum.int (if b then 2 else 1))
  | JSVal.null => JSVal.num (JSNum.int 1)
  | JSVal.undef => JSVal.num JSNum.nan

/-- `String.prototype.startsWith`, modelled as a list-of-character
prefix test. -/
def startsWithB (pre s : String) : Bool :=
  List.isPrefixOf pre.data s.data

/-! ## Offline cache worker (`src/public/scripts/sw.js`) -/

/-- A stored or network HTTP response, identified by its body. -/
structure SwResponse where
  body : String
deriving DecidableEq

/-- One cache bucket: an association of request-URL keys to stored
responses. -/
abbrev SwCache := List (String × SwResponse)

/-- The cache storage: named buckets in creation order. -/
abbrev SwCaches := List (String × SwCache)

/-- `var staticCacheName = 'basic-static-v1'`. -/
def staticCacheName : String := "basic-static-v1"

/-- `var contentImgsCache = 'basic-content-imgs'`. -/
def contentImgsCache : String := "basic-content-imgs"

/-- `var allCaches = [staticCacheName, contentImgsCache]`. -/
def allCaches : List String := [staticCacheName, contentImgsCache]

/-- `cache.match(key)` within one bucket: first entry stored under the
key. -/
def cacheMatchIn : SwCache → String → Option SwResponse
  | [], _ => none
  | (k, r) :: rest, key => if k = key then some r else cacheMatchIn rest key

/-- `cache.put(key, response)`: overwrite the entry for the key, or
append a new entry. -/
def cachePut : SwCache → String → SwResponse → SwCache
  | [], key, r => [(key, r)]
  | (k, r') :: rest, key, r =>
      if k = key then (key, r) :: rest else (k, r') :: cachePut rest key r

/-- `caches.open(name)`: the named bucket's contents (a fresh bucket is
empty). -/
def cachesOpen : SwCaches → String → SwCache
  | [], _ => []
  | (n, c) :: rest, name => if n = name then c else cachesOpen rest name

/-- Store back the (possibly freshly created) named bucket. -/
def cachesPutBucket : SwCaches → String → SwCache → SwCaches
  | [], name, c => [(name, c)]
  | (n, c') :: rest, name, c =>
      if n = name then (name, c) :: rest else (n, c') :: cachesPutBucket rest name c

/-- `caches.match(key)`: search every bucket in order, first hit wins. -/
def cachesMatch : SwCaches → String → Option SwResponse
  | [], _ => none
  | (_, c) :: rest, key =>
      match cacheMatchIn c key with
      | some r => some r
      | none => cachesMatch rest key

/-- The names deleted by the `activate` handler:
`cacheNames.filter(n => n.startsWith('basic-') && !allCaches.includes(n))`. -/
def staleNames (names : List String) : List String :=
  names.filter (fun n => startsWithB "basic-" n && !(allCaches.contains n))

/-- Effect of the `activate` handler on the cache storage: every stale
bucket is deleted by `caches.delete`. -/
def activateCaches (cs : SwCaches) : SwCaches :=
  cs.filter (fun b => !(startsWithB "basic-" b.1 && !(allCaches.contains b.1)))

/-- The leftmost end-anchored match of the image decoration pattern
(`-` one-or-more-digits `px.jpg` at the end of the string), removed:
this models `url.replace(new RegExp followed by dollar-anchor, '')` for
the pattern dash-digits-px-dot-jpg.  Working on the reversed character
list: the fixed tail `px.jpg`, then the maximal digit run, then the
required `-`. -/
def stripImgData (l : List Char) : List Char :=
  let r := l.reverse
  if List.isPrefixOf "gpj.xp".data r then
    let rest := r.drop 6
    let ds := rest.takeWhile Char.isDigit
    if ds = [] then l
    else
      match rest.drop ds.length with
      | '-' :: t => t.reverse
      | _ => l
  else l

/-- `request.url.replace(pattern, '')` for the end-anchored pattern
dash, digits, `px.jpg` — the image canonical-key derivation of
`serveImg`. -/
def stripImg (s : String) : String := String.mk (stripImgData s.data)

/-- End-anchored match of the script decoration pattern (`-` exactly one
digit `x.js`), removed — the canonical-key derivation of `serveScript`. -/
def stripScriptData (l : List Char) : List Char :=
  let r := l.reverse
  if List.isPrefixOf "sj.x".data r then
    match r.drop 4 with
    | d :: '-' :: t => if d.isDigit then t.reverse else l
    | _ => l
  else l

/-- `request.url.replace(pattern, '')` for the end-anchored pattern
dash, one digit, `x.js` — the script canonical-key derivation of
`serveScript`. -/
def stripScript (s : String) : String := String.mk (stripScriptData s.data)

/-- A fetched request: its origin and its path (`request.url` is their
concatenation, `new URL(request.url)` recovers the parts). -/
structure SwRequest where
  origin : String
  path : String
deriving DecidableEq

/-- The full URL string of a request. -/
def reqUrl (r : SwRequest) : String := r.origin ++ r.path

/-- The network, as a total map from URL to the live response. -/
abbrev SwNetwork := String → SwResponse

/-- Result of handling one fetch event: the response handed to
`respondWith` (none models a failed `caches.match` with no fallback),
the cache storage afterwards, the URLs fetched from the network, and
the cache keys looked up. -/
structure SwResult where
  resp : Option SwResponse
  caches : SwCaches
  fetches : List String
  lookups : List String
deriving DecidableEq

/-- `serveImg`: strip the resolution decoration to get the canonical
key; on a cache hit return the cached response; on a miss fetch the
original (decorated) request, store a clone under the canonical key and
return the live response. -/
def serveImg (cs : SwCaches) (net : SwNetwork) (r : SwRequest) : SwResult :=
  let key := stripImg (reqUrl r)
  let c := cachesOpen cs contentImgsCache
  match cacheMatchIn c key with
  | some resp =>
      { resp := some resp, caches := cs, fetches := [], lookups := [key] }
  | none =>
      let nr := net (reqUrl r)
      { resp := some nr
        caches := cachesPutBucket cs contentImgsCache (cachePut c key nr)
        fetches := [reqUrl r]
        lookups := [key] }

/-- `serveScript`: strip the device-pixel-ratio decoration to get the
canonical key and look it up, but the promise chain discards the
lookup's value (`.then(function () ... )` ignores its argument), so a
live fetch of the original request always follows; a clone is stored
under the canonical key and the live response is returned. -/
def serveScript (cs : SwCaches) (net : SwNetwork) (r : SwRequest) : SwResult :=
  let key := stripScript (reqUrl r)
  let c := cachesOpen cs contentImgsCache
  let _lk := cacheMatchIn c key
  let nr := net (reqUrl r)
  { resp := some nr
    caches := cachesPutBucket cs contentImgsCache (cachePut c key nr)
    fetches := [reqUrl r]
    lookups := [key] }

/-- The `fetch` listener's routing, in source order: same-origin root
path is answered from the cached `/skeleton` entry with no network
access; same-origin `/img/` paths go to `serveImg`; same-origin
`/scripts/` paths go to `serveScript`; everything else is
cache-first-then-network (the fallback result is not cached). -/
def handleFetch (locOrigin : String) (cs : SwCaches) (net : SwNetwork)
    (r : SwRequest) : SwResult :=
  if r.origin = locOrigin then
    if r.path = "/" then
      { resp := cachesMatch cs "/skeleton", caches := cs, fetches := [],
        lookups := ["/skeleton"] }
    else if startsWithB "/img/" r.path then serveImg cs net r
    else if startsWithB "/scripts/" r.path then serveScript cs net r
    else
      match cachesMatch cs (reqUrl r) with
      | some resp =>
          { resp := some resp, caches := cs, fetches := [], lookups := [reqUrl r] }
      | none =>
          { resp := some (net (reqUrl r)), caches := cs, fetches := [reqUrl r],
            lookups := [reqUrl r] }
  else
    match cachesMatch cs (reqUrl r) with
    | some resp =>
        { resp := some resp, caches := cs, fetches := [], lookups := [reqUrl r] }
    | none =>
        { resp := some (net (reqUrl r)), caches := cs, fetches := [reqUrl r],
          lookups := [reqUrl r] }

/-! ## Page controller (`src/public/scripts/indexController.js`) -/

/-- State of the page session observed by the `controllerchange`
listener: the guard flag (`var refreshing` starts out undefined, i.e.
falsy) and the number of `window.location.reload()` invocations. -/
structure PageState where
  refreshing : Bool
  reloads : Nat
deriving DecidableEq

/-- The fresh page session, before any controller-change event. -/
def pageInit : PageState := { refreshing := false, reloads := 0 }

/-- One delivery of the `controllerchange` event: if the guard flag is
set, return; otherwise reload the page and set the flag (both happen
within the one synchronous handler invocation). -/
def onControllerChange (s : PageState) : PageState :=
  if s.refreshing then s
  else { refreshing := true, reloads := s.reloads + 1 }

/-- Deliver a number of controller-change events in sequence. -/
def deliverControllerChanges : Nat → PageState → PageState
  | 0, s => s
  | n + 1, s => deliverControllerChanges n (onControllerChange s)

/-! ## BaseComponent, final generation (`src/components/BaseComponent.ts`) -/

/-- A piece of raw template markup: literal markup, or a mustache
placeholder naming a prop (the source detects placeholders with a
global regular expression and replaces each with a span carrying a
`data-bind` attribute; the template is embedded here as its parse into
literal and placeholder parts). -/
inductive TplPart where
  | lit : String → TplPart
  | placeholder : String → TplPart
deriving DecidableEq

/-- A child node of the component's shadow root: an injected inline
style element, an injected stylesheet link, a bound display span
(`data-bind` key and current text content), or static markup. -/
inductive SNode where
  | styleEl : String → SNode
  | linkEl : String → SNode
  | boundSpan : String → String → SNode
  | staticText : String → SNode
deriving DecidableEq

/-- Instrumentation record of the component's observable effects:
template materialization, creation of a bound display node for a key,
a refresh pass over the bound nodes of a key, a dispatched custom
event, and a style injection. -/
inductive REvent where
  | materialize : REvent
  | nodeCreated : String → REvent
  | contentUpdate : String → REvent
  | emitted : String → JSVal → REvent
  | styleInjected : String → REvent
deriving DecidableEq

/-- The component's template function: either the resolver closure that
looks `templateId` up in the page's template registry at render time,
or a function returning a fixed markup string. -/
inductive TemplateFn where
  | fromId : TemplateFn
  | constTpl : List TplPart → TemplateFn
deriving DecidableEq

/-- Instance state of a final-generation `BaseComponent`: the proxied
props, the template source, the one-time-render flag, the binding
table, the configured styles with their path classification, the
already-injected tracking set, the shadow-root children, and the
instrumentation log. -/
structure BC where
  props : List (String × JSVal)
  templateId : Option String
  templateFn : Option TemplateFn
  initialized : Bool
  bindings : List (String × List Nat)
  styles : List String
  stylesIsPath : List String
  styleAdded : List String
  nodes : List SNode
  log : List REvent
deriving DecidableEq

/-- Prop lookup (`this.props[key]`; `none` is JavaScript `undefined`). -/
def propGet : List (String × JSVal) → String → Option JSVal
  | [], _ => none
  | (k, v) :: ps, key => if k = key then some v else propGet ps key

/-- Prop assignment (`Reflect.set(target, prop, value)`). -/
def propSet : List (String × JSVal) → String → JSVal → List (String × JSVal)
  | [], key, v => [(key, v)]
  | (k, v') :: ps, key, v =>
      if k = key then (key, v) :: ps else (k, v') :: propSet ps key v

/-- Binding-table lookup (`this.bindings.get(key)`, defaulting to the
empty element list). -/
def lookupB : List (String × List Nat) → String → List Nat
  | [], _ => []
  | (k, is) :: rest, key => if k = key then is else lookupB rest key

/-- Record one more bound element (by node index) under a key, creating
the key's entry on first use (`bindings.get(key)!.push(el)`). -/
def addBinding : List (String × List Nat) → String → Nat → List (String × List Nat)
  | [], key, i => [(key, [i])]
  | (k, is) :: rest, key, i =>
      if k = key then (k, is ++ [i]) :: rest else (k, is) :: addBinding rest key i

/-- Scan of the shadow-root children for `data-bind` elements
(`querySelectorAll`), recording each bound span's index under its key;
`i` is the index of the first node of the remaining list. -/
def collectGo : Nat → List SNode → List (String × List Nat) → List (String × List Nat)
  | _, [], b => b
  | i, SNode.boundSpan k _ :: ns, b => collectGo (i + 1) ns (addBinding b k i)
  | i, SNode.styleEl _ :: ns, b => collectGo (i + 1) ns b
  | i, SNode.linkEl _ :: ns, b => collectGo (i + 1) ns b
  | i, SNode.staticText _ :: ns, b => collectGo (i + 1) ns b

/-- Build the binding table from the shadow-root children. -/
def collectBindings (ns : List SNode) : List (String × List Nat) :=
  collectGo 0 ns []

/-- `el.textContent = t` on one node. -/
def nodeWithText : SNode → String → SNode
  | SNode.boundSpan k _, t => SNode.boundSpan k t
  | SNode.styleEl _, t => SNode.styleEl t
  | SNode.linkEl h, _ => SNode.linkEl h
  | SNode.staticText _, t => SNode.staticText t

/-- Set the text content of the node at one index of the child list. -/
def setNodeText : List SNode → Nat → String → List SNode
  | [], _, _ => []
  | n :: ns, 0, t => nodeWithText n t :: ns
  | n :: ns, i + 1, t => n :: setNodeText ns i t

/-- `for (const el of els) el.textContent = t` over a list of bound
node indices. -/
def writeAll (ns : List SNode) (idxs : List Nat) (t : String) : List SNode :=
  idxs.foldl (fun acc i => setNodeText acc i t) ns

/-- The processed template markup: every mustache placeholder becomes
an (initially empty) bound display span; literal markup passes through. -/
def processTemplate : List TplPart → List SNode
  | [] => []
  | TplPart.lit s :: rest => SNode.staticText s :: processTemplate rest
  | TplPart.placeholder k :: rest => SNode.boundSpan k "" :: processTemplate rest

/-- One `nodeCreated` instrumentation event per placeholder of the
template. -/
def createdEvents : List TplPart → List REvent
  | [] => []
  | TplPart.lit _ :: rest => createdEvents rest
  | TplPart.placeholder k :: rest => REvent.nodeCreated k :: createdEvents rest

/-- First-render initial text: each bound span's text content is set to
the current string form of its prop. -/
def setInitialText (props : List (String × JSVal)) : SNode → SNode
  | SNode.boundSpan k _ => SNode.boundSpan k (jsDisplay (propGet props k))
  | n => n

/-- `s.endsWith(suf)` as a list-of-character suffix test. -/
def endsWithB (suf s : String) : Bool :=
  List.isPrefixOf suf.data.reverse s.data.reverse

/-- Lower-casing as a structural map over the character data (the
case-insensitivity of the path regular expression). -/
def strLower (s : String) : String := String.mk (s.data.map Char.toLower)

/-- The constructor's path detection for style entries
(case-insensitive: starts with `./` or `/` or `http://` or `https://`,
or ends with `.css`). -/
def isStylePath (s : String) : Bool :=
  let t := strLower s
  startsWithB "./" t || startsWithB "/" t || endsWithB ".css" t ||
    startsWithB "http://" t || startsWithB "https://" t

/-- `ensureStyles`' walk over the configured style list: entries already
in the injected set are skipped; a path entry becomes a stylesheet
link, any other entry an inline style element; each injected entry is
added to the injected set.  Returns the appended nodes, the updated
injected set, and the instrumentation events. -/
def injectStyles (isPath : List String) :
    List String → List String → List SNode × List String × List REvent
  | added, [] => ([], added, [])
  | added, s :: rest =>
      if added.contains s then injectStyles isPath added rest
      else
        let n := if isPath.contains s then SNode.linkEl s else SNode.styleEl s
        let r := injectStyles isPath (added ++ [s]) rest
        (n :: r.1, r.2.1, REvent.styleInjected s :: r.2.2)

/-- `ensureStyles`: inject each configured style into the shadow root at
most once. -/
def ensureStyles (c : BC) : BC :=
  let r := injectStyles c.stylesIsPath c.styleAdded c.styles
  { c with nodes := c.nodes ++ r.1, styleAdded := r.2.1, log := c.log ++ r.2.2 }

/-- `updateBindings(key)`: a no-op before initialization; otherwise
refresh the text content of every node bound to the key from the
current prop value. -/
def updateBindingsKey (c : BC) (key : String) : BC :=
  if c.initialized then
    { c with
      nodes := writeAll c.nodes (lookupB c.bindings key)
        (jsDisplay (propGet c.props key))
      log := c.log ++ [REvent.contentUpdate key] }
  else c

/-- The props proxy's `set` trap: perform the assignment, then (when the
initial render has completed) refresh that prop's bound nodes. -/
def proxySet (c : BC) (key : String) (v : JSVal) : BC :=
  let c1 := { c with props := propSet c.props key v }
  if c1.initialized then updateBindingsKey c1 key else c1

/-- `attributeChangedCallback(name, oldValue, newValue)`: a no-op on an
unchanged value; otherwise coerce the raw attribute string to the
prop's current type (`Number(newValue)` for a number-typed prop,
attribute presence for a boolean-typed prop, the raw value unchanged
otherwise), assign through the proxy, then refresh that prop's bound
nodes. -/
def attributeChangedCallback (c : BC) (name : String)
    (oldV newV : Option String) : BC :=
  if oldV = newV then c
  else
    let cur := propGet c.props name
    let v : JSVal :=
      if typeofIsNumber cur then JSVal.num (jsNumberOfAttr newV)
      else if typeofIsBoolean cur then JSVal.bool newV.isSome
      else
        match newV with
        | some s => JSVal.str s
        | none => JSVal.null
    updateBindingsKey (proxySet c name v) name

/-- `emit(eventName, detail)`: dispatch a custom event. -/
def bcEmit (c : BC) (name : String) (detail : JSVal) : BC :=
  { c with log := c.log ++ [REvent.emitted name detail] }

/-- Resolve the template function to template parts (`fromId` consults
the page's template registry `doc`; a missing template yields the empty
markup string after a diagnostic warning). -/
def resolveTpl (doc : String → Option (List TplPart)) (c : BC) :
    Option (List TplPart) :=
  match c.templateFn with
  | none => none
  | some TemplateFn.fromId => some ((doc (c.templateId.getD "")).getD [])
  | some (TemplateFn.constTpl tpl) => some tpl

/-- `render()`: a no-op without a template function.  First render:
inject styles, materialize the processed template into the shadow root,
collect the binding table, set each bound node's initial text from the
current props, and mark initialization complete.  Subsequent renders:
refresh every binding-table entry's nodes from the current props. -/
def render (doc : String → Option (List TplPart)) (c : BC) : BC :=
  match resolveTpl doc c with
  | none => c
  | some tpl =>
      if c.initialized then
        let r := c.bindings.foldl
          (fun (acc : List SNode × List REvent) e =>
            (writeAll acc.1 e.2 (jsDisplay (propGet c.props e.1)),
             acc.2 ++ [REvent.contentUpdate e.1]))
          (c.nodes, [])
        { c with nodes := r.1, log := c.log ++ r.2 }
      else
        let c1 := ensureStyles c
        let nodes1 := c1.nodes ++ processTemplate tpl
        { c1 with
          nodes := nodes1.map (setInitialText c.props)
          bindings := collectBindings nodes1
          initialized := true
          log := c1.log ++ [REvent.materialize] ++ createdEvents tpl }

/-- `connectedCallback()`: render on attach. -/
def connectedCallback (doc : String → Option (List TplPart)) (c : BC) : BC :=
  render doc c

/-- `disconnectedCallback()`: clear the shadow root's content, the
initialization flag, the binding table and the injected-style tracking
set. -/
def disconnectedCallback (c : BC) : BC :=
  { c with nodes := [], initialized := false, bindings := [], styleAdded := [] }

/-- The constructor: classify the provided styles (dropping falsy
entries), set up the proxied props from the initial props, and install
the template source (an identifier installs the registry resolver, a
function is kept as-is). -/
def mkComponent (template : Option (String ⊕ List TplPart))
    (initialProps : List (String × JSVal)) (styles : List String) : BC :=
  let kept := styles.filter (fun s => s ≠ "")
  { props := initialProps
    templateId :=
      match template with
      | some (Sum.inl id) => some id
      | _ => none
    templateFn :=
      match template with
      | some (Sum.inl _) => some TemplateFn.fromId
      | some (Sum.inr tpl) => some (TemplateFn.constTpl tpl)
      | none => none
    initialized := false
    bindings := []
    styles := kept
    stylesIsPath := kept.filter isStylePath
    styleAdded := []
    nodes := []
    log := [] }

/-! ## ExampleComponent -/

/-- Modelled from the spec: the compiled markup of
`ExampleComponent.pug` is not under `src/`; per the specification the
rendered markup carries a bound display node for `count` (one mustache
placeholder) inside action-wired markup. -/
def exampleTemplate : List TplPart :=
  [TplPart.lit "<button data-action=click:increment>",
   TplPart.placeholder "count",
   TplPart.lit "</button>"]

/-- Modelled from the spec: the text of the shared base stylesheet
(`base.css`) is not under `src/`; it is an opaque inline CSS string. -/
def exampleBaseCss : String := "basecss"

/-- Modelled from the spec: the text of `ExampleComponent.css` is not
under `src/`; it is an opaque inline CSS string. -/
def exampleOwnCss : String := "examplecss"

/-- The `ExampleComponent` constructor: a template function returning
the compiled markup, initial props `count 0`, `label "Counter"`,
`active false`, and the two stylesheets as inline strings. -/
def exampleConstruct : BC :=
  mkComponent (some (Sum.inr exampleTemplate))
    [("count", JSVal.num (JSNum.int 0)), ("label", JSVal.str "Counter"),
     ("active", JSVal.bool false)]
    [exampleBaseCss, exampleOwnCss]

/-- `increment()`: `this.props.count += 1` through the proxy, then emit
an `incremented` event carrying the new count. -/
def exampleIncrement (c : BC) : BC :=
  let c1 := proxySet c "count" (jsPlusOne ((propGet c.props "count").getD JSVal.undef))
  bcEmit c1 "incremented" ((propGet c1.props "count").getD JSVal.undef)

/-! ## Auxiliary definitions for the claim statements -/

/-- Is the event the creation of a display node bound to the key? -/
def isNodeCreatedFor (key : String) : REvent → Bool
  | REvent.nodeCreated k => k = key
  | _ => false

/-- Is the event the creation of any bound display node? -/
def isNodeCreatedEv : REvent → Bool
  | REvent.nodeCreated _ => true
  | _ => false

/-- Is the event a template materialization? -/
def isMaterializeEv : REvent → Bool
  | REvent.materialize => true
  | _ => false

/-- Is the event a refresh of the nodes bound to the key? -/
def isContentUpdateFor (key : String) : REvent → Bool
  | REvent.contentUpdate k => k = key
  | _ => false

/-- Does the optional node hold a display span bound to the key? -/
def nodeIsBoundTo (key : String) : Option SNode → Bool
  | some (SNode.boundSpan k _) => k = key
  | _ => false

/-- Indices (within a shadow-root child list) of the display spans bound
to a key. -/
def boundIdx (key : String) : List SNode → List Nat
  | [] => []
  | SNode.boundSpan k _ :: ns =>
      if k = key then 0 :: (boundIdx key ns).map (· + 1)
      else (boundIdx key ns).map (· + 1)
  | SNode.styleEl _ :: ns => (boundIdx key ns).map (· + 1)
  | SNode.linkEl _ :: ns => (boundIdx key ns).map (· + 1)
  | SNode.staticText _ :: ns => (boundIdx key ns).map (· + 1)

/-- Number of placeholders for a key in a template. -/
def countPlaceholders (key : String) : List TplPart → Nat
  | [] => 0
  | TplPart.placeholder k :: rest =>
      (if k = key then 1 else 0) + countPlaceholders key rest
  | TplPart.lit _ :: rest => countPlaceholders key rest

/-- A sequence of direct assignments to one prop, each going through
the props proxy. -/
def assignSeq (key : String) (vs : List JSVal) (c : BC) : BC :=
  vs.foldl (fun acc v => proxySet acc key v) c

/-- A URL whose character data ends in a valid image resolution
decoration: some base, then a dash, a nonempty digit run, and
`px.jpg`. -/
def ImgDecorated (s : String) : Prop :=
  ∃ u d : List Char, d ≠ [] ∧ (∀ x ∈ d, x.isDigit = true) ∧
    s.data = u ++ '-' :: (d ++ "px.jpg".data)

/-! ## General lemmas -/

theorem strData_append (a b : String) : (a ++ b).data = a.data ++ b.data := rfl

theorem strMk_data (s : String) : String.mk s.data = s := rfl

theorem isPrefixOf_iff (a : List Char) : ∀ l : List Char,
    List.isPrefixOf a l = true ↔ ∃ t, l = a ++ t := by
  induction a with
  | nil => intro l; simp [List.isPrefixOf]
  | cons x xs ih =>
    intro l
    cases l with
    | nil =>
      simp [List.isPrefixOf]
    | cons y ys =>
      constructor
      · intro h
        have hx : x = y ∧ List.isPrefixOf xs ys = true := by
          simpa [List.isPrefixOf, Bool.and_eq_true, beq_iff_eq] using h
        obtain ⟨rfl, h2⟩ := hx
        obtain ⟨t, rfl⟩ := (ih ys).mp h2
        exact ⟨t, rfl⟩
      · rintro ⟨t, ht⟩
        have h1 : y = x ∧ ys = xs ++ t := by
          constructor
          · exact (List.cons.injEq _ _ _ _ ▸ ht).1
          · exact (List.cons.injEq _ _ _ _ ▸ ht).2
        obtain ⟨rfl, rfl⟩ := h1
        simp [List.isPrefixOf, (ih (xs ++ t)).mpr ⟨t, rfl⟩]

theorem cacheMatchIn_cachePut_self (c : SwCache) (k : String) (r : SwResponse) :
    cacheMatchIn (cachePut c k r) k = some r := by
  induction c with
  | nil => simp [cachePut, cacheMatchIn]
  | cons e rest ih =>
    by_cases h : e.1 = k
    · simp [cachePut, h, cacheMatchIn]
    · simp [cachePut, h, cacheMatchIn, ih]

theorem cachesOpen_putBucket_self (cs : SwCaches) (n : String) (c : SwCache) :
    cachesOpen (cachesPutBucket cs n c) n = c := by
  induction cs with
  | nil => simp [cachesPutBucket, cachesOpen]
  | cons e rest ih =>
    by_cases h : e.1 = n
    · simp [cachesPutBucket, h, cachesOpen]
    · simp [cachesPutBucket, h, cachesOpen, ih]

theorem deliverControllerChanges_fixed (n : Nat) :
    ∀ s : PageState, s.refreshing = true → deliverControllerChanges n s = s := by
  induction n with
  | zero => intro s _; rfl
  | succ n ih =>
    intro s h
    have hcc : onControllerChange s = s := by
      simp [onControllerChange, h]
    simp [deliverControllerChanges, hcc, ih s h]

/-! ## Claim C7 -/

/-- C7: for every delivery of two or more controller-change events in
one page session, the page reload operation runs exactly once — the
first event reloads and sets the guard flag, and every later event
returns without reloading. -/
theorem claim7_reload_once (n : Nat) (h : 2 ≤ n) :
    deliverControllerChanges n pageInit = { refreshing := true, reloads := 1 } ∧
    onControllerChange pageInit = { refreshing := true, reloads := 1 } ∧
    (∀ s : PageState, s.refreshing = true → onControllerChange s = s) := by
  refine ⟨?_, by simp [onControllerChange, pageInit], fun s hs => by simp [onControllerChange, hs]⟩
  obtain ⟨m, rfl⟩ : ∃ m, n = m + 1 := ⟨n - 1, by omega⟩
  have h1 : onControllerChange pageInit = { refreshing := true, reloads := 1 } := by
    simp [onControllerChange, pageInit]
  calc deliverControllerChanges (m + 1) pageInit
      = deliverControllerChanges m (onControllerChange pageInit) := rfl
    _ = { refreshing := true, reloads := 1 } := by
        rw [h1]; exact deliverControllerChanges_fixed m _ rfl

/-- Witness for C7 at a concrete input: two events, one reload. -/
theorem claim7_reload_once_witness :
    2 ≤ 2 ∧ deliverControllerChanges 2 pageInit = { refreshing := true, reloads := 1 } :=
  ⟨by decide, (claim7_reload_once 2 (by decide)).1⟩

/-! ## Claim C5 -/

/-- C5: on activation a bucket name is deleted exactly when it starts
with the `basic-` prefix and is not allow-listed; from the three
buckets `basic-static-v1`, `basic-static-v0`, `other-app-cache`,
activation deletes exactly `basic-static-v0` and leaves the other two
untouched. -/
theorem claim5_activate_prunes (names : List String) (n : String) :
    (n ∈ staleNames names ↔
      n ∈ names ∧ startsWithB "basic-" n = true ∧ n ∉ allCaches) ∧
    staleNames ["basic-static-v1", "basic-static-v0", "other-app-cache"] =
      ["basic-static-v0"] ∧
    (∀ c1 c2 c3 : SwCache,
      activateCaches
          [("basic-static-v1", c1), ("basic-static-v0", c2), ("other-app-cache", c3)] =
        [("basic-static-v1", c1), ("other-app-cache", c3)]) := by
  refine ⟨?_, by decide, ?_⟩
  · simp [staleNames, List.mem_filter, Bool.and_eq_true, List.contains, List.elem_eq_mem]
  · intro c1 c2 c3
    have h1 : (!startsWithB "basic-" "basic-static-v1" ||
        decide ("basic-static-v1" ∈ allCaches)) = true := by decide
    have h2 : (!startsWithB "basic-" "basic-static-v0" ||
        decide ("basic-static-v0" ∈ allCaches)) = false := by decide
    have h3 : (!startsWithB "basic-" "other-app-cache" ||
        decide ("other-app-cache" ∈ allCaches)) = true := by decide
    simp [activateCaches, List.filter, h1, h2, h3]

/-! ## Claim C6 -/

/-- C6: every same-origin request for the exact path `/` is answered
with the result of matching the cached `/skeleton` entry; no network
fetch is issued for it and the cache storage is untouched, whether or
not the entry exists. -/
theorem claim6_root_serves_skeleton (o : String) (cs : SwCaches) (net : SwNetwork)
    (r : SwRequest) (h1 : r.origin = o) (h2 : r.path = "/") :
    handleFetch o cs net r =
      { resp := cachesMatch cs "/skeleton", caches := cs, fetches := [],
        lookups := ["/skeleton"] } := by
  simp [handleFetch, h1, h2]

/-- Witness for C6: a concrete same-origin root request against an
empty cache storage. -/
theorem claim6_root_serves_skeleton_witness :
    ({ origin := "https://app", path := "/" } : SwRequest).origin = "https://app" ∧
    ({ origin := "https://app", path := "/" } : SwRequest).path = "/" ∧
    handleFetch "https://app" [] (fun u => { body := u })
        { origin := "https://app", path := "/" } =
      { resp := cachesMatch [] "/skeleton", caches := [], fetches := [],
        lookups := ["/skeleton"] } :=
  ⟨rfl, rfl,
    claim6_root_serves_skeleton "https://app" [] (fun u => { body := u })
      { origin := "https://app", path := "/" } rfl rfl⟩

/-! ## Claim C3 -/

theorem scripts_path_ne_root (p : String) (h : startsWithB "/scripts/" p = true) :
    p ≠ "/" := by
  intro he
  subst he
  exact absurd h (by decide)

theorem scripts_path_not_img (p : String) (h : startsWithB "/scripts/" p = true) :
    startsWithB "/img/" p = false := by
  unfold startsWithB at h ⊢
  obtain ⟨t, ht⟩ := (isPrefixOf_iff _ _).mp h
  cases hb : List.isPrefixOf "/img/".data p.data
  · rfl
  · exfalso
    obtain ⟨u, hu⟩ := (isPrefixOf_iff _ _).mp hb
    rw [ht] at hu
    have h9 : "/scripts/".data = ['/', 's', 'c', 'r', 'i', 'p', 't', 's', '/'] := rfl
    have h5 : "/img/".data = ['/', 'i', 'm', 'g', '/'] := rfl
    rw [h9, h5] at hu
    simp at hu

theorem stripScript_decorated (u : String) (c : Char) (hc : c.isDigit = true) :
    stripScript (u ++ "-" ++ String.singleton c ++ "x.js") = u := by
  have hdata : (u ++ "-" ++ String.singleton c ++ "x.js").data
      = u.data ++ '-' :: c :: "x.js".data := by
    simp [strData_append]
  unfold stripScript stripScriptData
  rw [hdata]
  have hrev : (u.data ++ '-' :: c :: "x.js".data).reverse
      = "sj.x".data ++ c :: '-' :: u.data.reverse := by
    have hx : ("x.js".data).reverse = "sj.x".data := by decide
    simp [List.reverse_append, ← hx]
  rw [hrev]
  have hpre : List.isPrefixOf "sj.x".data ("sj.x".data ++ c :: '-' :: u.data.reverse) = true :=
    (isPrefixOf_iff _ _).mpr ⟨_, rfl⟩
  simp [hpre, hc]

/-- C3: every same-origin `/scripts/` request is routed to the script
strategy, which derives the canonical key by stripping a trailing
dash-digit-`x.js` suffix, looks the key up, then always fetches the
original request live — even when the lookup hits — stores the network
response under the canonical key, and returns the live response; the
cached entry is never the response. -/
theorem claim3_scripts_always_network (o : String) (cs : SwCaches) (net : SwNetwork)
    (r : SwRequest) (h1 : r.origin = o) (h2 : startsWithB "/scripts/" r.path = true) :
    handleFetch o cs net r = serveScript cs net r ∧
    (handleFetch o cs net r).resp = some (net (reqUrl r)) ∧
    (handleFetch o cs net r).lookups = [stripScript (reqUrl r)] ∧
    (handleFetch o cs net r).fetches = [reqUrl r] ∧
    cacheMatchIn (cachesOpen (handleFetch o cs net r).caches contentImgsCache)
        (stripScript (reqUrl r)) = some (net (reqUrl r)) ∧
    (∀ u : String, ∀ ch : Char, ch.isDigit = true →
      stripScript (u ++ "-" ++ String.singleton ch ++ "x.js") = u) := by
  have hroot : r.path ≠ "/" := scripts_path_ne_root r.path h2
  have himg : startsWithB "/img/" r.path = false := scripts_path_not_img r.path h2
  have hroute : handleFetch o cs net r = serveScript cs net r := by
    simp [handleFetch, h1, hroot, himg, h2]
  refine ⟨hroute, ?_, ?_, ?_, ?_, fun u ch hch => stripScript_decorated u ch hch⟩
  · rw [hroute]; rfl
  · rw [hroute]; rfl
  · rw [hroute]; rfl
  · rw [hroute]
    show cacheMatchIn
        (cachesOpen
          (cachesPutBucket cs contentImgsCache
            (cachePut (cachesOpen cs contentImgsCache) (stripScript (reqUrl r))
              (net (reqUrl r))))
          contentImgsCache)
        (stripScript (reqUrl r)) = some (net (reqUrl r))
    rw [cachesOpen_putBucket_self, cacheMatchIn_cachePut_self]

/-- Witness for C3: a concrete same-origin script request whose
canonical key is already cached with a different response; the live
response is still returned. -/
theorem claim3_scripts_always_network_witness :
    ({ origin := "https://app", path := "/scripts/app-2x.js" } : SwRequest).origin
        = "https://app" ∧
    startsWithB "/scripts/"
        ({ origin := "https://app", path := "/scripts/app-2x.js" } : SwRequest).path = true ∧
    (handleFetch "https://app"
        [("basic-content-imgs", [("https://app/scripts/app", { body := "stale" })])]
        (fun _ => { body := "live" })
        { origin := "https://app", path := "/scripts/app-2x.js" }).resp
      = some { body := "live" } :=
  ⟨rfl, by decide,
    (claim3_scripts_always_network "https://app"
      [("basic-content-imgs", [("https://app/scripts/app", { body := "stale" })])]
      (fun _ => { body := "live" })
      { origin := "https://app", path := "/scripts/app-2x.js" } rfl (by decide)).2.1⟩

theorem takeWhile_digits_app (a : List Char) (c : Char) (b : List Char)
    (ha : ∀ x ∈ a, x.isDigit = true) (hc : c.isDigit = false) :
    (a ++ c :: b).takeWhile Char.isDigit = a := by
  induction a with
  | nil => simp [List.takeWhile_cons, hc]
  | cons x xs ih =>
    have hx : x.isDigit = true := ha x (by simp)
    have ihh := ih (fun y hy => ha y (by simp [hy]))
    simp [List.takeWhile_cons, hx, ihh]

theorem stripImgData_decorated (u d : List Char) (hd : d ≠ [])
    (hdig : ∀ x ∈ d, x.isDigit = true) :
    stripImgData (u ++ '-' :: (d ++ "px.jpg".data)) = u := by
  unfold stripImgData
  have hrev : (u ++ '-' :: (d ++ "px.jpg".data)).reverse
      = "gpj.xp".data ++ (d.reverse ++ '-' :: u.reverse) := by
    have hx : ("px.jpg".data).reverse = "gpj.xp".data := by decide
    simp [List.reverse_append, ← hx]
  rw [hrev]
  have hpre : List.isPrefixOf "gpj.xp".data
      ("gpj.xp".data ++ (d.reverse ++ '-' :: u.reverse)) = true :=
    (isPrefixOf_iff _ _).mpr ⟨_, rfl⟩
  have hdrop : ("gpj.xp".data ++ (d.reverse ++ '-' :: u.reverse)).drop 6
      = d.reverse ++ '-' :: u.reverse := by
    have h6 : ("gpj.xp".data).length = 6 := by decide
    rw [← h6, List.drop_left]
  have htw : (d.reverse ++ '-' :: u.reverse).takeWhile Char.isDigit = d.reverse :=
    takeWhile_digits_app _ _ _ (fun x hx => hdig x (List.mem_reverse.mp hx)) (by decide)
  have hne : d.reverse ≠ [] := by simpa using hd
  have hdr : (d.reverse ++ '-' :: u.reverse).drop d.reverse.length = '-' :: u.reverse :=
    List.drop_left _ _
  simp [hpre, hdrop, htw, hne, hdr]

theorem stripImg_decorated (U d : String) (hd : d.data ≠ [])
    (hdig : d.data.all Char.isDigit = true) :
    stripImg (U ++ "-" ++ d ++ "px.jpg") = U := by
  have hdata : (U ++ "-" ++ d ++ "px.jpg").data
      = U.data ++ '-' :: (d.data ++ "px.jpg".data) := by
    simp [strData_append]
  unfold stripImg
  rw [hdata, stripImgData_decorated U.data d.data hd
    (fun x hx => by simpa using (List.all_eq_true.mp hdig) x hx)]

theorem stripImgData_of_not_decorated (l : List Char)
    (h : ¬ ∃ u d : List Char, d ≠ [] ∧ (∀ x ∈ d, x.isDigit = true) ∧
        l = u ++ '-' :: (d ++ "px.jpg".data)) :
    stripImgData l = l := by
  unfold stripImgData
  cases hpre : List.isPrefixOf "gpj.xp".data l.reverse with
  | false => simp [hpre]
  | true =>
    obtain ⟨rest, hr⟩ := (isPrefixOf_iff _ _).mp hpre
    have hdrop : l.reverse.drop 6 = rest := by
      rw [hr]
      have h6 : ("gpj.xp".data).length = 6 := by decide
      rw [← h6, List.drop_left]
    cases hds : rest.takeWhile Char.isDigit with
    | nil => simp [hpre, hdrop, hds]
    | cons c0 cs =>
      have hsplit : rest = (c0 :: cs) ++ rest.dropWhile Char.isDigit := by
        conv_lhs => rw [← List.takeWhile_append_dropWhile Char.isDigit rest]
        rw [hds]
      have hdropw : List.drop (cs.length + 1) rest = rest.dropWhile Char.isDigit := by
        have hlen : (c0 :: cs).length = cs.length + 1 := rfl
        rw [← hlen]
        conv_lhs => rw [hsplit]
        exact List.drop_left _ _
      cases hdw : rest.dropWhile Char.isDigit with
      | nil =>
        simp [hpre, hdrop, hds, hdropw, hdw]
      | cons c1 t =>
        by_cases hc1 : c1 = '-'
        · exfalso
          apply h
          refine ⟨t.reverse, (c0 :: cs).reverse, by simp, ?_, ?_⟩
          · intro x hx
            have hx0 : x ∈ c0 :: cs := List.mem_reverse.mp hx
            have hx' : x ∈ rest.takeWhile Char.isDigit := hds ▸ hx0
            exact List.mem_takeWhile_imp hx'
          · subst hc1
            have hl : l = rest.reverse ++ "px.jpg".data := by
              have := congrArg List.reverse hr
              simpa [List.reverse_append] using this
            rw [hl, hsplit, hdw]
            simp [List.reverse_append]
        · simp [hpre, hdrop, hds, hdropw, hdw]
          split
          · rename_i heq
            injection heq with h1 h2
            exact absurd h1 hc1
          · rfl

theorem stripImg_of_not_decorated (K : String) (h : ¬ ImgDecorated K) :
    stripImg K = K := by
  unfold stripImg
  rw [stripImgData_of_not_decorated K.data (fun hx => h hx)]

/-- C4 (amended): for every base image URL `U` and valid decoration
dash-digits-`px.jpg`, the image strategy's canonical key equals `U`;
normalization leaves a key unchanged when the key does not itself end
in a decoration (for a key that still ends in a decoration after one
strip, a second strip removes another layer, so unrestricted
idempotence fails); and a cache write performed while serving one
decorated variant is a cache hit — returning the stored response with
no network fetch — for a later request of any other decorated variant
of the same `U`. -/
theorem claim4_img_key_collapsing (U d : String) (hd : d.data ≠ [])
    (hdig : d.data.all Char.isDigit = true) :
    stripImg (U ++ "-" ++ d ++ "px.jpg") = U ∧
    (∀ K : String, ¬ ImgDecorated K → stripImg K = K) ∧
    (∀ (d2 : String) (r1 r2 : SwRequest) (cs : SwCaches) (net : SwNetwork),
      d2.data ≠ [] → d2.data.all Char.isDigit = true →
      reqUrl r1 = U ++ "-" ++ d ++ "px.jpg" →
      reqUrl r2 = U ++ "-" ++ d2 ++ "px.jpg" →
      cacheMatchIn (cachesOpen cs contentImgsCache) U = none →
      (serveImg (serveImg cs net r1).caches net r2).resp = some (net (reqUrl r1)) ∧
      (serveImg (serveImg cs net r1).caches net r2).fetches = []) := by
  refine ⟨stripImg_decorated U d hd hdig, fun K hK => stripImg_of_not_decorated K hK, ?_⟩
  intro d2 r1 r2 cs net hd2 hdig2 hu1 hu2 hmiss
  have hk1 : stripImg (reqUrl r1) = U := by
    rw [hu1]; exact stripImg_decorated U d hd hdig
  have hk2 : stripImg (reqUrl r2) = U := by
    rw [hu2]; exact stripImg_decorated U d2 hd2 hdig2
  have hs1 : serveImg cs net r1 =
      { resp := some (net (reqUrl r1))
        caches := cachesPutBucket cs contentImgsCache
          (cachePut (cachesOpen cs contentImgsCache) U (net (reqUrl r1)))
        fetches := [reqUrl r1]
        lookups := [U] } := by
    simp only [serveImg]
    rw [hk1, hmiss]
  rw [hs1]
  have hopen : cachesOpen
      (cachesPutBucket cs contentImgsCache
        (cachePut (cachesOpen cs contentImgsCache) U (net (reqUrl r1))))
      contentImgsCache
      = cachePut (cachesOpen cs contentImgsCache) U (net (reqUrl r1)) :=
    cachesOpen_putBucket_self _ _ _
  have hhit : cacheMatchIn
      (cachePut (cachesOpen cs contentImgsCache) U (net (reqUrl r1))) U
      = some (net (reqUrl r1)) :=
    cacheMatchIn_cachePut_self _ _ _
  constructor
  · simp only [serveImg]
    rw [hk2, hopen, hhit]
  · simp only [serveImg]
    rw [hk2, hopen, hhit]

/-- Counterexample to C4 as stated: the derived canonical key of the
image request `https://app/img/photo-1px.jpg-2px.jpg` is
`https://app/img/photo-1px.jpg`, an already-canonical key that
normalization does not leave unchanged — a second strip removes
another decoration layer, so normalization is not idempotent. -/
theorem claim4_idempotence_counterexample :
    stripImg (stripImg "https://app/img/photo-1px.jpg-2px.jpg") ≠
      stripImg "https://app/img/photo-1px.jpg-2px.jpg" := by decide

/-- Witness for C4 at concrete inputs: base `https://app/img/photo`,
decorations `800px` and `40px`, both variants collapsing onto the base
key, with the second request hitting the first request's cache write. -/
theorem claim4_img_key_collapsing_witness :
    ("800" : String).data ≠ [] ∧ ("800" : String).data.all Char.isDigit = true ∧
    stripImg ("https://app/img/photo" ++ "-" ++ "800" ++ "px.jpg")
      = "https://app/img/photo" ∧
    (serveImg
        (serveImg [] (fun _ => { body := "img" })
          { origin := "https://app", path := "/img/photo-800px.jpg" }).caches
        (fun _ => { body := "img" })
        { origin := "https://app", path := "/img/photo-40px.jpg" }).fetches = [] := by
  have h1 : ("800" : String).data ≠ [] := by decide
  have h2 : ("800" : String).data.all Char.isDigit = true := by decide
  have main := claim4_img_key_collapsing "https://app/img/photo" "800" h1 h2
  refine ⟨h1, h2, main.1, ?_⟩
  exact (main.2.2 "40"
    { origin := "https://app", path := "/img/photo-800px.jpg" }
    { origin := "https://app", path := "/img/photo-40px.jpg" }
    [] (fun _ => { body := "img" })
    (by decide) (by decide) (by decide) (by decide) (by decide)).2

/-! ## Component lemmas -/

theorem propGet_propSet_self (ps : List (String × JSVal)) (k : String) (v : JSVal) :
    propGet (propSet ps k v) k = some v := by
  induction ps with
  | nil => simp [propSet, propGet]
  | cons e rest ih =>
    by_cases h : e.1 = k
    · simp [propSet, h, propGet]
    · simp [propSet, h, propGet, ih]

theorem nodeWithText_idem (n : SNode) (t : String) :
    nodeWithText (nodeWithText n t) t = nodeWithText n t := by
  cases n <;> rfl

theorem setNodeText_get (ns : List SNode) (i j : Nat) (t : String) :
    (setNodeText ns i t)[j]? =
      if i = j then (ns[j]?).map (fun n => nodeWithText n t) else ns[j]? := by
  induction ns generalizing i j with
  | nil => cases i <;> simp [setNodeText]
  | cons n rest ih =>
    cases i with
    | zero =>
      cases j with
      | zero => simp [setNodeText]
      | succ j => simp [setNodeText]
    | succ i =>
      cases j with
      | zero => simp [setNodeText]
      | succ j => simp [setNodeText, ih]

theorem setNodeText_length (ns : List SNode) (i : Nat) (t : String) :
    (setNodeText ns i t).length = ns.length := by
  induction ns generalizing i with
  | nil => cases i <;> rfl
  | cons n rest ih =>
    cases i with
    | zero => simp [setNodeText]
    | succ i => simp [setNodeText, ih]

theorem writeAll_get (idxs : List Nat) (ns : List SNode) (t : String) (j : Nat) :
    (writeAll ns idxs t)[j]? =
      if j ∈ idxs then (ns[j]?).map (fun n => nodeWithText n t) else ns[j]? := by
  induction idxs generalizing ns with
  | nil => simp [writeAll]
  | cons i is ih =>
    have h1 : writeAll ns (i :: is) t = writeAll (setNodeText ns i t) is t := rfl
    rw [h1, ih, setNodeText_get]
    by_cases hj : j ∈ is <;> by_cases hij : i = j
    · subst hij
      simp [hj]
      cases h : ns[i]? <;> simp [nodeWithText_idem]
    · simp [hj, hij]
    · subst hij
      simp [hj]
    · have hji : ¬ j = i := fun hh => hij hh.symm
      simp [hj, hij, hji, List.mem_cons]

theorem writeAll_length (idxs : List Nat) (ns : List SNode) (t : String) :
    (writeAll ns idxs t).length = ns.length := by
  induction idxs generalizing ns with
  | nil => rfl
  | cons i is ih =>
    have h1 : writeAll ns (i :: is) t = writeAll (setNodeText ns i t) is t := rfl
    rw [h1, ih, setNodeText_length]

theorem lookupB_addBinding_self (b : List (String × List Nat)) (k : String) (i : Nat) :
    lookupB (addBinding b k i) k = lookupB b k ++ [i] := by
  induction b with
  | nil => simp [addBinding, lookupB]
  | cons e rest ih =>
    by_cases h : e.1 = k
    · simp [addBinding, h, lookupB]
    · simp [addBinding, h, lookupB, ih]

theorem lookupB_addBinding_ne (b : List (String × List Nat)) (k' k : String) (i : Nat)
    (h : k' ≠ k) : lookupB (addBinding b k' i) k = lookupB b k := by
  induction b with
  | nil => simp [addBinding, lookupB, h]
  | cons e rest ih =>
    by_cases he : e.1 = k'
    · simp [addBinding, he, lookupB, h]
    · simp [addBinding, he, lookupB, ih]

theorem lookupB_collectGo (key : String) (ns : List SNode) :
    ∀ (j : Nat) (b : List (String × List Nat)),
      lookupB (collectGo j ns b) key = lookupB b key ++ (boundIdx key ns).map (j + ·) := by
  induction ns with
  | nil => intro j b; simp [collectGo, boundIdx]
  | cons n rest ih =>
    intro j b
    have hshift : ∀ l : List Nat, (l.map (· + 1)).map (j + ·) = l.map ((j + 1) + ·) := by
      intro l
      rw [List.map_map]
      apply List.map_congr_left
      intro x _
      simp [Function.comp]
      omega
    cases n with
    | boundSpan k txt =>
      by_cases hk : k = key
      · subst hk
        simp only [collectGo, boundIdx, if_pos rfl]
        rw [ih (j + 1) (addBinding b k j), lookupB_addBinding_self]
        simp [hshift, List.append_assoc]
      · simp only [collectGo, boundIdx, if_neg hk]
        rw [ih (j + 1) (addBinding b k j), lookupB_addBinding_ne b k key j hk]
        simp [hshift]
    | styleEl s =>
      simp only [collectGo, boundIdx]
      rw [ih (j + 1) b]
      simp [hshift]
    | linkEl s =>
      simp only [collectGo, boundIdx]
      rw [ih (j + 1) b]
      simp [hshift]
    | staticText s =>
      simp only [collectGo, boundIdx]
      rw [ih (j + 1) b]
      simp [hshift]

theorem lookupB_collect (key : String) (ns : List SNode) :
    lookupB (collectBindings ns) key = boundIdx key ns := by
  have h := lookupB_collectGo key ns 0 []
  simpa [collectBindings, lookupB] using h

theorem boundIdx_cons_span_eq (key txt : String) (ns : List SNode) :
    boundIdx key (SNode.boundSpan key txt :: ns) = 0 :: (boundIdx key ns).map (· + 1) := by
  simp [boundIdx]

theorem boundIdx_cons_span_ne (k key txt : String) (ns : List SNode) (h : k ≠ key) :
    boundIdx key (SNode.boundSpan k txt :: ns) = (boundIdx key ns).map (· + 1) := by
  simp [boundIdx, h]

theorem boundIdx_cons_style (key s : String) (ns : List SNode) :
    boundIdx key (SNode.styleEl s :: ns) = (boundIdx key ns).map (· + 1) := by
  simp [boundIdx]

theorem boundIdx_cons_link (key s : String) (ns : List SNode) :
    boundIdx key (SNode.linkEl s :: ns) = (boundIdx key ns).map (· + 1) := by
  simp [boundIdx]

theorem boundIdx_cons_static (key s : String) (ns : List SNode) :
    boundIdx key (SNode.staticText s :: ns) = (boundIdx key ns).map (· + 1) := by
  simp [boundIdx]

theorem mem_map_succ_iff (l : List Nat) (m : Nat) :
    m + 1 ∈ l.map (· + 1) ↔ m ∈ l := by
  simp only [List.mem_map]
  constructor
  · rintro ⟨x, hx, he⟩
    have : x = m := by omega
    subst this
    exact hx
  · intro h
    exact ⟨m, h, rfl⟩

theorem zero_not_mem_map_succ (l : List Nat) : 0 ∉ l.map (· + 1) := by
  simp only [List.mem_map]
  rintro ⟨x, _, he⟩
  omega

theorem mem_boundIdx (key : String) (ns : List SNode) :
    ∀ m : Nat, m ∈ boundIdx key ns ↔ ∃ t, ns[m]? = some (SNode.boundSpan key t) := by
  induction ns with
  | nil => intro m; simp [boundIdx]
  | cons n rest ih =>
    intro m
    cases n with
    | boundSpan k txt =>
      by_cases hk : k = key
      · subst hk
        rw [boundIdx_cons_span_eq]
        cases m with
        | zero => simp
        | succ m =>
          simp only [List.mem_cons, List.getElem?_cons_succ]
          rw [← ih m]
          constructor
          · rintro (h0 | h1)
            · omega
            · exact (mem_map_succ_iff _ m).mp h1
          · intro h
            exact Or.inr ((mem_map_succ_iff _ m).mpr h)
      · rw [boundIdx_cons_span_ne k key txt rest hk]
        cases m with
        | zero =>
          simp only [List.getElem?_cons_zero]
          constructor
          · intro h0
            exact absurd h0 (zero_not_mem_map_succ _)
          · rintro ⟨t, ht⟩
            have := Option.some.inj ht
            exact absurd (SNode.boundSpan.injEq _ _ _ _ ▸ congrArg id this) (by
              intro hh
              exact hk (SNode.boundSpan.inj this).1)
        | succ m =>
          simp only [List.getElem?_cons_succ]
          rw [mem_map_succ_iff, ih m]
    | styleEl s =>
      rw [boundIdx_cons_style]
      cases m with
      | zero => simp [zero_not_mem_map_succ]
      | succ m =>
        simp only [List.getElem?_cons_succ]
        rw [mem_map_succ_iff, ih m]
    | linkEl s =>
      rw [boundIdx_cons_link]
      cases m with
      | zero => simp [zero_not_mem_map_succ]
      | succ m =>
        simp only [List.getElem?_cons_succ]
        rw [mem_map_succ_iff, ih m]
    | staticText s =>
      rw [boundIdx_cons_static]
      cases m with
      | zero => simp [zero_not_mem_map_succ]
      | succ m =>
        simp only [List.getElem?_cons_succ]
        rw [mem_map_succ_iff, ih m]

theorem boundIdx_append (key : String) (a : List SNode) :
    ∀ b : List SNode,
      boundIdx key (a ++ b) = boundIdx key a ++ (boundIdx key b).map (a.length + ·) := by
  induction a with
  | nil => intro b; simp [boundIdx]
  | cons n rest ih =>
    intro b
    have hshift : ((boundIdx key b).map (rest.length + ·)).map (· + 1)
        = (boundIdx key b).map ((rest.length + 1) + ·) := by
      rw [List.map_map]
      apply List.map_congr_left
      intro x _
      simp [Function.comp]
      omega
    cases n with
    | boundSpan k txt =>
      by_cases hk : k = key
      · subst hk
        rw [List.cons_append, boundIdx_cons_span_eq, boundIdx_cons_span_eq, ih b]
        simp [List.map_append, hshift, List.length_cons]
      · rw [List.cons_append, boundIdx_cons_span_ne k key txt _ hk,
          boundIdx_cons_span_ne k key txt rest hk, ih b]
        simp [List.map_append, hshift, List.length_cons]
    | styleEl s =>
      rw [List.cons_append, boundIdx_cons_style, boundIdx_cons_style, ih b]
      simp [List.map_append, hshift, List.length_cons]
    | linkEl s =>
      rw [List.cons_append, boundIdx_cons_link, boundIdx_cons_link, ih b]
      simp [List.map_append, hshift, List.length_cons]
    | staticText s =>
      rw [List.cons_append, boundIdx_cons_static, boundIdx_cons_static, ih b]
      simp [List.map_append, hshift, List.length_cons]

theorem boundIdx_processTemplate_length (key : String) (tpl : List TplPart) :
    (boundIdx key (processTemplate tpl)).length = countPlaceholders key tpl := by
  induction tpl with
  | nil => simp [processTemplate, boundIdx, countPlaceholders]
  | cons part rest ih =>
    cases part with
    | lit s =>
      simp [processTemplate, boundIdx_cons_static, countPlaceholders, ih]
    | placeholder k =>
      by_cases hk : k = key
      · subst hk
        simp [processTemplate, boundIdx_cons_span_eq, countPlaceholders, ih]
        omega
      · simp [processTemplate, boundIdx_cons_span_ne k key _ _ hk, countPlaceholders, hk, ih]

theorem boundIdx_injectStyles (key : String) (isPath : List String) :
    ∀ added ss : List String, boundIdx key (injectStyles isPath added ss).1 = [] := by
  intro added ss
  induction ss generalizing added with
  | nil => simp [injectStyles, boundIdx]
  | cons s rest ih =>
    by_cases hs : s ∈ added
    · simp [injectStyles, hs, ih]
    · by_cases hp : s ∈ isPath
      · simp [injectStyles, hs, hp, boundIdx_cons_link, ih]
      · simp [injectStyles, hs, hp, boundIdx_cons_style, ih]

theorem boundIdx_map_setInitialText (key : String) (props : List (String × JSVal)) :
    ∀ ns : List SNode, boundIdx key (ns.map (setInitialText props)) = boundIdx key ns := by
  intro ns
  induction ns with
  | nil => simp
  | cons n rest ih =>
    cases n with
    | boundSpan k txt =>
      by_cases hk : k = key
      · subst hk
        simp only [List.map_cons, setInitialText, boundIdx_cons_span_eq, ih]
      · simp only [List.map_cons, setInitialText,
          boundIdx_cons_span_ne k key _ _ hk,
          boundIdx_cons_span_ne k key txt rest hk, ih]
    | styleEl s =>
      simp only [List.map_cons, setInitialText, boundIdx_cons_style, ih]
    | linkEl s =>
      simp only [List.map_cons, setInitialText, boundIdx_cons_link, ih]
    | staticText s =>
      simp only [List.map_cons, setInitialText, boundIdx_cons_static, ih]

theorem injectStyles_log_mem (isPath : List String) :
    ∀ (ss added : List String) (e : REvent),
      e ∈ (injectStyles isPath added ss).2.2 → ∃ s, e = REvent.styleInjected s := by
  intro ss
  induction ss with
  | nil => intro added e he; simp [injectStyles] at he
  | cons s rest ih =>
    intro added e he
    by_cases hs : s ∈ added
    · simp [injectStyles, hs] at he
      exact ih added e he
    · simp [injectStyles, hs] at he
      rcases he with he | he
      · exact ⟨s, he⟩
      · exact ih (added ++ [s]) e he

theorem createdEvents_countP_for (key : String) (tpl : List TplPart) :
    (createdEvents tpl).countP (isNodeCreatedFor key) = countPlaceholders key tpl := by
  induction tpl with
  | nil => simp [createdEvents, countPlaceholders]
  | cons part rest ih =>
    cases part with
    | lit s => simp [createdEvents, countPlaceholders, ih]
    | placeholder k =>
      by_cases hk : k = key
      · subst hk
        simp [createdEvents, countPlaceholders, List.countP_cons, ih, isNodeCreatedFor]
        omega
      · simp [createdEvents, countPlaceholders, List.countP_cons, ih, isNodeCreatedFor, hk]

theorem createdEvents_countP_mat (tpl : List TplPart) :
    (createdEvents tpl).countP isMaterializeEv = 0 := by
  induction tpl with
  | nil => simp [createdEvents]
  | cons part rest ih =>
    cases part with
    | lit s => simp [createdEvents, ih]
    | placeholder k => simp [createdEvents, List.countP_cons, ih, isMaterializeEv]

theorem createdEvents_countP_upd (key : String) (tpl : List TplPart) :
    (createdEvents tpl).countP (isContentUpdateFor key) = 0 := by
  induction tpl with
  | nil => simp [createdEvents]
  | cons part rest ih =>
    cases part with
    | lit s => simp [createdEvents, ih]
    | placeholder k => simp [createdEvents, List.countP_cons, ih, isContentUpdateFor]

theorem render_mk (doc : String → Option (List TplPart)) (tpl : List TplPart)
    (props0 : List (String × JSVal)) (styles : List String) :
    connectedCallback doc (mkComponent (some (Sum.inr tpl)) props0 styles) =
      { props := props0
        templateId := none
        templateFn := some (TemplateFn.constTpl tpl)
        initialized := true
        bindings := collectBindings
          ((injectStyles (styles.filter (fun s => s ≠ "")
              |>.filter isStylePath) [] (styles.filter (fun s => s ≠ ""))).1
            ++ processTemplate tpl)
        styles := styles.filter (fun s => s ≠ "")
        stylesIsPath := (styles.filter (fun s => s ≠ "")).filter isStylePath
        styleAdded := (injectStyles (styles.filter (fun s => s ≠ "")
            |>.filter isStylePath) [] (styles.filter (fun s => s ≠ ""))).2.1
        nodes := ((injectStyles (styles.filter (fun s => s ≠ "")
              |>.filter isStylePath) [] (styles.filter (fun s => s ≠ ""))).1
            ++ processTemplate tpl).map (setInitialText props0)
        log := (injectStyles (styles.filter (fun s => s ≠ "")
            |>.filter isStylePath) [] (styles.filter (fun s => s ≠ ""))).2.2
          ++ [REvent.materialize] ++ createdEvents tpl } := by
  simp [connectedCallback, render, resolveTpl, mkComponent, ensureStyles]

theorem proxySet_eq (c : BC) (key : String) (v : JSVal) (hinit : c.initialized = true) :
    proxySet c key v =
      { c with
        props := propSet c.props key v
        nodes := writeAll c.nodes (lookupB c.bindings key) (jsDisplay (some v))
        log := c.log ++ [REvent.contentUpdate key] } := by
  simp only [proxySet, updateBindingsKey, hinit, if_true]
  simp [propGet_propSet_self]

theorem assignSeq_effects (p : String) (vs : List JSVal) :
    ∀ c : BC, c.initialized = true →
    (∀ j ∈ lookupB c.bindings p,
      c.nodes[j]? = some (SNode.boundSpan p (jsDisplay (propGet c.props p)))) →
    (assignSeq p vs c).initialized = true ∧
    (assignSeq p vs c).bindings = c.bindings ∧
    (assignSeq p vs c).templateFn = c.templateFn ∧
    (assignSeq p vs c).nodes.length = c.nodes.length ∧
    (assignSeq p vs c).log = c.log ++ vs.map (fun _ => REvent.contentUpdate p) ∧
    (∀ j, j ∉ lookupB c.bindings p → (assignSeq p vs c).nodes[j]? = c.nodes[j]?) ∧
    (∀ j ∈ lookupB c.bindings p,
      (assignSeq p vs c).nodes[j]? =
        some (SNode.boundSpan p (jsDisplay (propGet (assignSeq p vs c).props p)))) := by
  induction vs with
  | nil =>
    intro c hinit hspan
    refine ⟨hinit, rfl, rfl, rfl, by simp [assignSeq], fun j _ => rfl, ?_⟩
    intro j hj
    exact hspan j hj
  | cons v vs ih =>
    intro c hinit hspan
    have hstep : assignSeq p (v :: vs) c = assignSeq p vs (proxySet c p v) := rfl
    set c' := proxySet c p v with hc'
    have hc'eq : c' =
        { c with
          props := propSet c.props p v
          nodes := writeAll c.nodes (lookupB c.bindings p) (jsDisplay (some v))
          log := c.log ++ [REvent.contentUpdate p] } := by
      rw [hc', proxySet_eq c p v hinit]
    have hinit' : c'.initialized = true := by rw [hc'eq]; exact hinit
    have hbind' : c'.bindings = c.bindings := by rw [hc'eq]
    have hprops' : propGet c'.props p = some v := by
      rw [hc'eq]
      exact propGet_propSet_self c.props p v
    have hspan' : ∀ j ∈ lookupB c'.bindings p,
        c'.nodes[j]? = some (SNode.boundSpan p (jsDisplay (propGet c'.props p))) := by
      intro j hj
      rw [hbind'] at hj
      have hw : c'.nodes[j]? =
          (c.nodes[j]?).map (fun n => nodeWithText n (jsDisplay (some v))) := by
        rw [hc'eq]
        show (writeAll c.nodes (lookupB c.bindings p) (jsDisplay (some v)))[j]? = _
        rw [writeAll_get]
        simp [hj]
      obtain ⟨t, ht⟩ : ∃ t, c.nodes[j]? = some (SNode.boundSpan p t) :=
        ⟨_, hspan j hj⟩
      rw [hw, ht, hprops']
      rfl
    obtain ⟨r1, r2, r3, r4, r5, r6, r7⟩ := ih c' hinit' hspan'
    rw [hstep]
    refine ⟨r1, by rw [r2, hbind'], by rw [r3, hc'eq], ?_, ?_, ?_, ?_⟩
    · rw [r4, hc'eq]
      show (writeAll c.nodes (lookupB c.bindings p) (jsDisplay (some v))).length
          = c.nodes.length
      exact writeAll_length _ _ _
    · rw [r5, hc'eq]
      simp
    · intro j hj
      have h6 := r6 j (by rw [hbind']; exact hj)
      rw [h6, hc'eq]
      show (writeAll c.nodes (lookupB c.bindings p) (jsDisplay (some v)))[j]? = c.nodes[j]?
      rw [writeAll_get]
      simp [hj]
    · intro j hj
      exact r7 j (by rw [hbind']; exact hj)

theorem countP_map_const {α : Type} (vs : List α) (e : REvent) (q : REvent → Bool) :
    (vs.map (fun _ => e)).countP q = if q e then vs.length else 0 := by
  induction vs with
  | nil => simp
  | cons v rest ih =>
    rw [List.map_cons, List.countP_cons, ih]
    cases hq : q e <;> simp [hq]

theorem countP_zero_of_shape (l : List REvent) (q : REvent → Bool)
    (h : ∀ e ∈ l, q e = false) : l.countP q = 0 :=
  List.countP_eq_zero.mpr (by intro a ha; simp [h a ha])

/-! ## Claim C1 -/

/-- C1: a final-generation component whose template holds exactly two
placeholders for a prop materializes the template once on first render,
creating exactly two bound display nodes recorded in the binding table;
ten subsequent direct assignments to the prop then produce exactly ten
bound-node content refreshes with zero node creations and zero template
re-materializations, touching only the recorded nodes, which end up
showing the string form of the prop's final value. -/
theorem claim1_two_bindings_incremental (p : String) (tpl : List TplPart)
    (props0 : List (String × JSVal)) (styles : List String)
    (doc : String → Option (List TplPart)) (vs : List JSVal)
    (h2 : countPlaceholders p tpl = 2) (h10 : vs.length = 10) :
    (lookupB (connectedCallback doc
        (mkComponent (some (Sum.inr tpl)) props0 styles)).bindings p).length = 2 ∧
    ((connectedCallback doc
        (mkComponent (some (Sum.inr tpl)) props0 styles)).log.countP
      (isNodeCreatedFor p)) = 2 ∧
    ((connectedCallback doc
        (mkComponent (some (Sum.inr tpl)) props0 styles)).log.countP
      isMaterializeEv) = 1 ∧
    (((assignSeq p vs (connectedCallback doc
          (mkComponent (some (Sum.inr tpl)) props0 styles))).log.drop
        (connectedCallback doc
          (mkComponent (some (Sum.inr tpl)) props0 styles)).log.length).countP
      (isContentUpdateFor p)) = 10 ∧
    (((assignSeq p vs (connectedCallback doc
          (mkComponent (some (Sum.inr tpl)) props0 styles))).log.drop
        (connectedCallback doc
          (mkComponent (some (Sum.inr tpl)) props0 styles)).log.length).countP
      isNodeCreatedEv) = 0 ∧
    (((assignSeq p vs (connectedCallback doc
          (mkComponent (some (Sum.inr tpl)) props0 styles))).log.drop
        (connectedCallback doc
          (mkComponent (some (Sum.inr tpl)) props0 styles)).log.length).countP
      isMaterializeEv) = 0 ∧
    (assignSeq p vs (connectedCallback doc
        (mkComponent (some (Sum.inr tpl)) props0 styles))).bindings =
      (connectedCallback doc
        (mkComponent (some (Sum.inr tpl)) props0 styles)).bindings ∧
    (assignSeq p vs (connectedCallback doc
        (mkComponent (some (Sum.inr tpl)) props0 styles))).nodes.length =
      (connectedCallback doc
        (mkComponent (some (Sum.inr tpl)) props0 styles)).nodes.length ∧
    (∀ j, j ∉ lookupB (connectedCallback doc
          (mkComponent (some (Sum.inr tpl)) props0 styles)).bindings p →
      (assignSeq p vs (connectedCallback doc
          (mkComponent (some (Sum.inr tpl)) props0 styles))).nodes[j]? =
        (connectedCallback doc
          (mkComponent (some (Sum.inr tpl)) props0 styles)).nodes[j]?) ∧
    (∀ j ∈ lookupB (connectedCallback doc
          (mkComponent (some (Sum.inr tpl)) props0 styles)).bindings p,
      (assignSeq p vs (connectedCallback doc
          (mkComponent (some (Sum.inr tpl)) props0 styles))).nodes[j]? =
        some (SNode.boundSpan p (jsDisplay (propGet
          (assignSeq p vs (connectedCallback doc
            (mkComponent (some (Sum.inr tpl)) props0 styles))).props p)))) := by
  set s1 := connectedCallback doc (mkComponent (some (Sum.inr tpl)) props0 styles)
    with hs1def
  set kept := styles.filter (fun s => s ≠ "") with hkept
  set isPath := kept.filter isStylePath with hisPath
  set inj := injectStyles isPath [] kept with hinj
  set nodes1 := inj.1 ++ processTemplate tpl with hnodes1
  have hs1 : s1 =
      { props := props0
        templateId := none
        templateFn := some (TemplateFn.constTpl tpl)
        initialized := true
        bindings := collectBindings nodes1
        styles := kept
        stylesIsPath := isPath
        styleAdded := inj.2.1
        nodes := nodes1.map (setInitialText props0)
        log := inj.2.2 ++ [REvent.materialize] ++ createdEvents tpl } := by
    rw [hs1def, render_mk]
  have hlookup : lookupB s1.bindings p = boundIdx p nodes1 := by
    rw [hs1]
    exact lookupB_collect p nodes1
  have hbidx : boundIdx p nodes1 =
      (boundIdx p (processTemplate tpl)).map (inj.1.length + ·) := by
    rw [hnodes1, boundIdx_append, boundIdx_injectStyles]
    simp
  have hlen2 : (lookupB s1.bindings p).length = 2 := by
    rw [hlookup, hbidx]
    simp [boundIdx_processTemplate_length, h2]
  have hinit1 : s1.initialized = true := by rw [hs1]
  have hspan1 : ∀ j ∈ lookupB s1.bindings p,
      s1.nodes[j]? = some (SNode.boundSpan p (jsDisplay (propGet s1.props p))) := by
    intro j hj
    rw [hlookup] at hj
    obtain ⟨t, ht⟩ := (mem_boundIdx p nodes1 j).mp hj
    have : s1.nodes[j]? = (nodes1.map (setInitialText props0))[j]? := by rw [hs1]
    rw [this, List.getElem?_map, ht]
    have hp1 : s1.props = props0 := by rw [hs1]
    rw [hp1]
    rfl
  obtain ⟨r1, r2, r3, r4, r5, r6, r7⟩ := assignSeq_effects p vs s1 hinit1 hspan1
  have hinjlog : ∀ q : REvent → Bool,
      (∀ s : String, q (REvent.styleInjected s) = false) → inj.2.2.countP q = 0 := by
    intro q hq
    apply countP_zero_of_shape
    intro e he
    obtain ⟨s, rfl⟩ := injectStyles_log_mem isPath kept [] e he
    exact hq s
  have hlogC : s1.log.countP (isNodeCreatedFor p) = 2 := by
    rw [hs1]
    show (inj.2.2 ++ [REvent.materialize] ++ createdEvents tpl).countP
      (isNodeCreatedFor p) = 2
    rw [List.countP_append, List.countP_append, createdEvents_countP_for,
      hinjlog (isNodeCreatedFor p) (fun s => rfl)]
    simp [isNodeCreatedFor, h2]
  have hlogM : s1.log.countP isMaterializeEv = 1 := by
    rw [hs1]
    show (inj.2.2 ++ [REvent.materialize] ++ createdEvents tpl).countP
      isMaterializeEv = 1
    rw [List.countP_append, List.countP_append, createdEvents_countP_mat,
      hinjlog isMaterializeEv (fun s => rfl)]
    simp [isMaterializeEv]
  have hdelta : (assignSeq p vs s1).log.drop s1.log.length
      = vs.map (fun _ => REvent.contentUpdate p) := by
    rw [r5, List.drop_left]
  refine ⟨hlen2, hlogC, hlogM, ?_, ?_, ?_, r2, r4, r6, r7⟩
  · rw [hdelta, countP_map_const]
    simp [isContentUpdateFor, h10]
  · rw [hdelta, countP_map_const]
    simp [isNodeCreatedEv]
  · rw [hdelta, countP_map_const]
    simp [isMaterializeEv]

/-- Witness for C1: a concrete template with two placeholders for the
prop `x` and ten concrete assignments. -/
theorem claim1_two_bindings_incremental_witness :
    countPlaceholders "x"
      [TplPart.placeholder "x", TplPart.lit "mid", TplPart.placeholder "x"] = 2 ∧
    ([JSVal.num (JSNum.int 1), JSVal.num (JSNum.int 2), JSVal.num (JSNum.int 3),
      JSVal.num (JSNum.int 4), JSVal.num (JSNum.int 5), JSVal.num (JSNum.int 6),
      JSVal.num (JSNum.int 7), JSVal.num (JSNum.int 8), JSVal.num (JSNum.int 9),
      JSVal.num (JSNum.int 10)] : List JSVal).length = 10 ∧
    (lookupB (connectedCallback (fun _ => none)
        (mkComponent
          (some (Sum.inr [TplPart.placeholder "x", TplPart.lit "mid",
            TplPart.placeholder "x"]))
          [("x", JSVal.num (JSNum.int 0))] [])).bindings "x").length = 2 :=
  ⟨by decide, by decide,
    (claim1_two_bindings_incremental "x"
      [TplPart.placeholder "x", TplPart.lit "mid", TplPart.placeholder "x"]
      [("x", JSVal.num (JSNum.int 0))] [] (fun _ => none)
      [JSVal.num (JSNum.int 1), JSVal.num (JSNum.int 2), JSVal.num (JSNum.int 3),
       JSVal.num (JSNum.int 4), JSVal.num (JSNum.int 5), JSVal.num (JSNum.int 6),
       JSVal.num (JSNum.int 7), JSVal.num (JSNum.int 8), JSVal.num (JSNum.int 9),
       JSVal.num (JSNum.int 10)] (by decide) (by decide)).1⟩

theorem updateBindingsKey_props (c : BC) (k : String) :
    (updateBindingsKey c k).props = c.props := by
  unfold updateBindingsKey
  split <;> rfl

theorem updateBindingsKey_bindings (c : BC) (k : String) :
    (updateBindingsKey c k).bindings = c.bindings := by
  unfold updateBindingsKey
  split <;> rfl

theorem proxySet_props (c : BC) (k : String) (v : JSVal) :
    (proxySet c k v).props = propSet c.props k v := by
  unfold proxySet
  simp only []
  split
  · rw [updateBindingsKey_props]
  · rfl

theorem typeof_bool_not_num (o : Option JSVal) (h : typeofIsBoolean o = true) :
    typeofIsNumber o = false := by
  cases o with
  | none => rfl
  | some v => cases v <;> simp [typeofIsBoolean, typeofIsNumber] at h ⊢

/-! ## Claim C2 -/

/-- C2: on an attribute change with a changed value, the raw string is
coerced to the prop's current type — a boolean-typed prop becomes true
exactly when the attribute is present (any string, including the empty
string) and false when absent; a number-typed prop receives the
`Number(...)` conversion of the raw value, producing the not-a-number
value on non-numeric input, whose display form is the string `NaN`
(computed totally, no throwing); any other prop type receives the raw
string unchanged. -/
theorem claim2_attr_coercion (c : BC) (name : String) (oldV newV : Option String)
    (hch : oldV ≠ newV) :
    (typeofIsBoolean (propGet c.props name) = true →
      propGet (attributeChangedCallback c name oldV newV).props name
        = some (JSVal.bool newV.isSome)) ∧
    (typeofIsNumber (propGet c.props name) = true →
      propGet (attributeChangedCallback c name oldV newV).props name
        = some (JSVal.num (jsNumberOfAttr newV))) ∧
    jsDisplay (some (JSVal.num JSNum.nan)) = "NaN" ∧
    jsStringToNumber "abc" = JSNum.nan ∧
    (typeofIsNumber (propGet c.props name) = false →
      typeofIsBoolean (propGet c.props name) = false →
      ∀ s : String, newV = some s →
        propGet (attributeChangedCallback c name oldV newV).props name
          = some (JSVal.str s)) := by
  refine ⟨?_, ?_, rfl, by decide, ?_⟩
  · intro hbool
    have hnum := typeof_bool_not_num _ hbool
    simp only [attributeChangedCallback, if_neg hch, hnum, hbool, Bool.false_eq_true,
      if_false, if_true]
    rw [updateBindingsKey_props, proxySet_props, propGet_propSet_self]
  · intro hnum
    simp only [attributeChangedCallback, if_neg hch, hnum, if_true]
    rw [updateBindingsKey_props, proxySet_props, propGet_propSet_self]
  · intro hnum hbool s hs
    subst hs
    simp only [attributeChangedCallback, if_neg hch, hnum, hbool, Bool.false_eq_true,
      if_false]
    rw [updateBindingsKey_props, proxySet_props, propGet_propSet_self]

/-- Witness for C2: a boolean-typed prop and an attribute change from
absent to the present empty string coerces to `true`. -/
theorem claim2_attr_coercion_witness :
    ((none : Option String) ≠ some "") ∧
    typeofIsBoolean (propGet
      (mkComponent none [("active", JSVal.bool false)] []).props "active") = true ∧
    propGet (attributeChangedCallback
        (mkComponent none [("active", JSVal.bool false)] [])
        "active" none (some "")).props "active"
      = some (JSVal.bool true) :=
  ⟨by decide, by decide,
    (claim2_attr_coercion (mkComponent none [("active", JSVal.bool false)] [])
      "active" none (some "") (by decide)).1 (by decide)⟩

/-! ## Claim C9 -/

/-- C9: removing the observed attribute of a number-typed prop (a
change notification whose new value is absent) coerces through the
numeric conversion of `null` and therefore sets the prop to `0` — not
to the not-a-number value, `null`, or the previous value — and the
prop's bound nodes then display the text `0`. -/
theorem claim9_remove_numeric_attr (c : BC) (name : String) (oldV : Option String)
    (hnum : typeofIsNumber (propGet c.props name) = true)
    (hold : oldV ≠ none)
    (hinit : c.initialized = true)
    (hspan : ∀ j ∈ lookupB c.bindings name, nodeIsBoundTo name c.nodes[j]? = true) :
    propGet (attributeChangedCallback c name oldV none).props name
      = some (JSVal.num (JSNum.int 0)) ∧
    jsDisplay (some (JSVal.num (JSNum.int 0))) = "0" ∧
    (∀ j ∈ lookupB c.bindings name,
      (attributeChangedCallback c name oldV none).nodes[j]? =
        some (SNode.boundSpan name "0")) := by
  have hstep : attributeChangedCallback c name oldV none =
      updateBindingsKey (proxySet c name (JSVal.num (JSNum.int 0))) name := by
    simp only [attributeChangedCallback, if_neg hold, hnum, if_true]
    rfl
  have hps : proxySet c name (JSVal.num (JSNum.int 0)) =
      { c with
        props := propSet c.props name (JSVal.num (JSNum.int 0))
        nodes := writeAll c.nodes (lookupB c.bindings name) "0"
        log := c.log ++ [REvent.contentUpdate name] } := by
    rw [proxySet_eq c name (JSVal.num (JSNum.int 0)) hinit]
    have h0 : jsDisplay (some (JSVal.num (JSNum.int 0))) = "0" := by decide
    rw [h0]
  refine ⟨?_, rfl, ?_⟩
  · rw [hstep, updateBindingsKey_props, proxySet_props, propGet_propSet_self]
  · intro j hj
    rw [hstep]
    have hinit2 : (proxySet c name (JSVal.num (JSNum.int 0))).initialized = true := by
      rw [hps]
      exact hinit
    have hb2 : (proxySet c name (JSVal.num (JSNum.int 0))).bindings = c.bindings := by
      rw [hps]
    have hp2 : propGet (proxySet c name (JSVal.num (JSNum.int 0))).props name
        = some (JSVal.num (JSNum.int 0)) := by
      rw [proxySet_props, propGet_propSet_self]
    have hnodes2 : (updateBindingsKey (proxySet c name (JSVal.num (JSNum.int 0))) name).nodes
        = writeAll (writeAll c.nodes (lookupB c.bindings name) "0")
            (lookupB c.bindings name) "0" := by
      unfold updateBindingsKey
      rw [if_pos hinit2, hb2, hp2]
      have h0 : jsDisplay (some (JSVal.num (JSNum.int 0))) = "0" := by decide
      rw [h0, hps]
    rw [hnodes2, writeAll_get, if_pos hj, writeAll_get, if_pos hj]
    have hbound := hspan j hj
    cases hn : c.nodes[j]? with
    | none => rw [hn] at hbound; simp [nodeIsBoundTo] at hbound
    | some n =>
      rw [hn] at hbound
      cases n with
      | boundSpan k t =>
        have hk : k = name := by
          simpa [nodeIsBoundTo] using hbound
        subst hk
        rfl
      | styleEl s => simp [nodeIsBoundTo] at hbound
      | linkEl s => simp [nodeIsBoundTo] at hbound
      | staticText s => simp [nodeIsBoundTo] at hbound

/-- Witness for C9: a rendered component with a number-typed `count`
prop whose observed attribute is removed. -/
theorem claim9_remove_numeric_attr_witness :
    typeofIsNumber (propGet (connectedCallback (fun _ => none)
      (mkComponent (some (Sum.inr [TplPart.placeholder "count"]))
        [("count", JSVal.num (JSNum.int 5))] [])).props "count") = true ∧
    (connectedCallback (fun _ => none)
      (mkComponent (some (Sum.inr [TplPart.placeholder "count"]))
        [("count", JSVal.num (JSNum.int 5))] [])).initialized = true ∧
    propGet (attributeChangedCallback
        (connectedCallback (fun _ => none)
          (mkComponent (some (Sum.inr [TplPart.placeholder "count"]))
            [("count", JSVal.num (JSNum.int 5))] []))
        "count" (some "5") none).props "count"
      = some (JSVal.num (JSNum.int 0)) :=
  ⟨by decide, by decide,
    (claim9_remove_numeric_attr
      (connectedCallback (fun _ => none)
        (mkComponent (some (Sum.inr [TplPart.placeholder "count"]))
          [("count", JSVal.num (JSNum.int 5))] []))
      "count" (some "5") (by decide) (by decide) (by decide) (by decide)).1⟩

/-! ## Claim C8 -/

/-- C8: constructing `ExampleComponent` initializes props to count 0,
label `Counter`, active false; after attaching, invoking `increment`
three times leaves the count prop at 3, dispatches exactly three
`incremented` events carrying 1, 2 and 3 in order — each dispatched
after its count refresh — and leaves every display node bound to
`count` showing the text `3`. -/
theorem claim8_example_counter :
    propGet exampleConstruct.props "count" = some (JSVal.num (JSNum.int 0)) ∧
    propGet exampleConstruct.props "label" = some (JSVal.str "Counter") ∧
    propGet exampleConstruct.props "active" = some (JSVal.bool false) ∧
    propGet (exampleIncrement (exampleIncrement (exampleIncrement
        (connectedCallback (fun _ => none) exampleConstruct)))).props "count"
      = some (JSVal.num (JSNum.int 3)) ∧
    (exampleIncrement (exampleIncrement (exampleIncrement
        (connectedCallback (fun _ => none) exampleConstruct)))).log =
      [REvent.styleInjected exampleBaseCss, REvent.styleInjected exampleOwnCss,
       REvent.materialize, REvent.nodeCreated "count",
       REvent.contentUpdate "count",
       REvent.emitted "incremented" (JSVal.num (JSNum.int 1)),
       REvent.contentUpdate "count",
       REvent.emitted "incremented" (JSVal.num (JSNum.int 2)),
       REvent.contentUpdate "count",
       REvent.emitted "incremented" (JSVal.num (JSNum.int 3))] ∧
    lookupB (exampleIncrement (exampleIncrement (exampleIncrement
        (connectedCallback (fun _ => none) exampleConstruct)))).bindings "count"
      = [3] ∧
    (∀ j ∈ lookupB (exampleIncrement (exampleIncrement (exampleIncrement
        (connectedCallback (fun _ => none) exampleConstruct)))).bindings "count",
      (exampleIncrement (exampleIncrement (exampleIncrement
          (connectedCallback (fun _ => none) exampleConstruct)))).nodes[j]?
        = some (SNode.boundSpan "count" "3")) := by
  decide

/-! ## Claim C10 -/

/-- C10: detaching a final-generation component clears only the
encapsulated content and the per-render bookkeeping — the initialized
flag, the binding table and the injected-style tracking set — while
the template source (function and id), the configured style list with
its path classification, and all prop values are untouched; a
subsequent re-attach therefore renders exactly what a pristine
component with the same template, styles and the props held at detach
time would render. -/
theorem claim10_detach_clears_render_state (c : BC)
    (doc : String → Option (List TplPart)) :
    (disconnectedCallback c).templateFn = c.templateFn ∧
    (disconnectedCallback c).templateId = c.templateId ∧
    (disconnectedCallback c).styles = c.styles ∧
    (disconnectedCallback c).stylesIsPath = c.stylesIsPath ∧
    (disconnectedCallback c).props = c.props ∧
    (disconnectedCallback c).initialized = false ∧
    (disconnectedCallback c).bindings = [] ∧
    (disconnectedCallback c).styleAdded = [] ∧
    (disconnectedCallback c).nodes = [] ∧
    (connectedCallback doc (disconnectedCallback c)).nodes =
      (connectedCallback doc
        { props := c.props, templateId := c.templateId, templateFn := c.templateFn,
          initialized := false, bindings := [], styles := c.styles,
          stylesIsPath := c.stylesIsPath, styleAdded := [], nodes := [],
          log := [] }).nodes ∧
    (connectedCallback doc (disconnectedCallback c)).bindings =
      (connectedCallback doc
        { props := c.props, templateId := c.templateId, templateFn := c.templateFn,
          initialized := false, bindings := [], styles := c.styles,
          stylesIsPath := c.stylesIsPath, styleAdded := [], nodes := [],
          log := [] }).bindings := by
  refine ⟨rfl, rfl, rfl, rfl, rfl, rfl, rfl, rfl, rfl, ?_, ?_⟩ <;>
  · cases htf : c.templateFn with
    | none =>
      simp [connectedCallback, render, resolveTpl, disconnectedCallback, htf]
    | some tf =>
      cases tf with
      | fromId =>
        simp [connectedCallback, render, resolveTpl, disconnectedCallback,
          ensureStyles, htf]
      | constTpl tpl =>
        simp [connectedCallback, render, resolveTpl, disconnectedCallback,
          ensureStyles, htf]
